import Mathlib

/-!
# Verification of the modman download/verification/caching pipeline

Shallow embedding of `src/modman/runtime.py` (ModManRuntime: the download
manager, cache and integrity verifier) and `src/modman/modrinth.py`
(ModrinthAPI: the rate-limited registry client and catalog fetchers),
with the data model of `src/modman/models/modrinth.py`.

File contents are modelled as byte lists (`Content`); filesystem paths are a
two-constructor inductive (`Path`): a file in the process cache directory
(`appdirs.user_cache_dir`), or a file in a destination directory.  The
filesystem is a finite map `Path → Option Content`.  The cryptographic digest
(`hashlib`, an external library) is modelled as an arbitrary function
`sha1Hex : Content → String` passed as a parameter, together with its
streaming interface: the hasher state is the list of bytes fed so far,
`update` appends a chunk, and `hexdigest` applies `sha1Hex` to the
accumulated bytes.  The network is a map `url → Option Content`: `some c`
means a GET of the url streams content `c`; `none` means the transfer raises
(transport error, or a non-2xx status from `raise_for_status`) and writes
nothing.

Thread-pool execution in `download_files` is deterministic at the level of
observable results: each worker writes only to its own file in the cache
directory and the futures are joined in submission order, so the pipeline is
embedded as explicit sequential state passing.
-/

namespace Modman

/-- A file's content, as the list of its bytes. -/
abbrev Content := List Nat

/-- Record `VersionFileHashes` from `models/modrinth.py`: both digests
optional. -/
structure VersionFileHashes where
  sha1 : Option String
  sha256 : Option String
deriving DecidableEq, Repr

/-- Record `VersionFile` from `models/modrinth.py`. -/
structure VersionFile where
  hashes : VersionFileHashes
  url : String
  filename : String
  primary : Bool
  size : Nat
deriving DecidableEq, Repr

instance : Inhabited VersionFile :=
  ⟨{ hashes := ⟨none, none⟩, url := "", filename := "", primary := false, size := 0 }⟩

/-- A filesystem path: either `self.cache_dir / filename` or
`destination / filename`. -/
inductive Path where
  | cacheFile (filename : String)
  | destFile (dir : String) (filename : String)
deriving DecidableEq, Repr

/-- The filesystem: which content, if any, is stored at each path. -/
abbrev FS := Path → Option Content

/-- Write a file (`open(path, "wb")` / the write half of `shutil.move`). -/
def fsWrite (fs : FS) (p : Path) (c : Content) : FS :=
  fun q => if q = p then some c else fs q

/-- Remove a file (the unlink half of `shutil.move`). -/
def fsErase (fs : FS) (p : Path) : FS :=
  fun q => if q = p then none else fs q

/-- The network, as seen by `httpx`: `some c` means streaming a GET of the
url yields content `c`; `none` means the request raises before anything is
written (connect/read error, or non-2xx caught by `raise_for_status`). -/
abbrev Network := String → Option Content

/-! ## IntegrityVerifier: `ModManRuntime._verify_file` (runtime.py 47-53)

```python
hasher = hashlib.new(method)
with open(path, "rb") as f:
    while chunk := f.read(4096):
        hasher.update(chunk)
return hasher.hexdigest() == expected
```

`f.read(4096)` yields successive 4096-byte chunks of the file and then
`b""`, which is falsy and ends the loop; `chunksOf` is that chunk
sequence. -/

/-- The sequence of chunks produced by repeatedly calling `f.read(4096)`. -/
def chunksOf : Content → List Content
  | [] => []
  | b :: rest => ((b :: rest).take 4096) :: chunksOf ((b :: rest).drop 4096)
termination_by l => l.length
decreasing_by
  simp only [List.length_drop, List.length_cons]
  omega

/-- Function `_verify_file`.  The hasher is fed the file's chunks; the final
comparison `hasher.hexdigest() == expected` is a Python `str == (str | None)`
comparison, which is `False` when `expected` is `None`. -/
def verify_file (sha1Hex : Content → String) (content : Content)
    (expected : Option String) : Bool :=
  let hasher := (chunksOf content).foldl (fun acc chunk => acc ++ chunk) []
  match expected with
  | none => false
  | some e => sha1Hex hasher == e

/-! ## Python dicts

`downloads: dict[VersionFile, Path | None]` and the result dict
`locations: dict[VersionFile, Path]` are insertion-ordered maps; assignment
to an existing key overwrites the value in place (keeping the original key
and position), assignment to a new key appends. -/

/-- Dict assignment `d[k] = v`. -/
def dictSet {α β : Type} [DecidableEq α] : List (α × β) → α → β → List (α × β)
  | [], k, v => [(k, v)]
  | (k', v') :: rest, k, v =>
    if k' = k then (k', v) :: rest else (k', v') :: dictSet rest k v

/-- Dict lookup `d[k]` (as an option; every key used here is present). -/
def dictGet {α β : Type} [DecidableEq α] : List (α × β) → α → Option β
  | [], _ => none
  | (k', v) :: rest, k => if k' = k then some v else dictGet rest k

/-- The per-descriptor download bookkeeping
`downloads: dict[VersionFile, pathlib.Path | None]`. -/
abbrev Downloads := List (VersionFile × Option Path)

/-- The result `locations: dict[VersionFile, pathlib.Path]`. -/
abbrev Locations := List (VersionFile × Path)

/-- The exceptions that can escape `download_files`. -/
inductive DLError where
  /-- `RuntimeError("File integrity check failed for %r")`. -/
  | integrity (filename : String)
  /-- A transfer exception re-raised by `future.result()`. -/
  | fetch (filename : String)
  /-- `FileNotFoundError` from opening a cache entry that is gone. -/
  | fileNotFound (filename : String)
deriving DecidableEq, Repr

/-! ## DownloadManager: `ModManRuntime.download_files` (runtime.py 66-141)

The method runs in three sequential phases; the embedding follows them in
order.

Phase 1 (lines 82-95): for each descriptor, set `downloads[file] = None`,
consult the cache (`_get_cached_file`: the path `cache_dir / filename` if it
exists), and verify a cache hit immediately, raising `RuntimeError` on a
mismatch and storing the cached path on success.

Phase 2 (lines 97-127): descriptors with `downloads[file]` still falsy are
submitted to a `ThreadPoolExecutor`; `progress.add_task` hands out task ids
`0, 1, 2, ...` in submission order.  Each worker streams its url into
`cache_dir / filename`.  After submission the code iterates the futures in
task order: `future.result()` re-raises any transfer exception, and on
success records `downloads[files[task_id]] = cache_dir / files[task_id].filename`
— indexing the full `files` list with the task id, not with the position of
the task's own file.

Phase 3 (lines 129-141): each `downloads` entry still `None` is logged and
skipped; every other entry is re-opened at its recorded path, re-verified
(mismatch raises `RuntimeError`), then moved to `destination / filename` and
recorded in the result dict. -/

/-- Phase 1: the cache-check loop over `files`. -/
def cacheCheckLoop (sha1Hex : Content → String) (fs : FS) :
    List VersionFile → Downloads → Except DLError Downloads
  | [], downloads => .ok downloads
  | file :: rest, downloads =>
    let downloads' := dictSet downloads file none
    match fs (Path.cacheFile file.filename) with
    | some content =>
      if verify_file sha1Hex content file.hashes.sha1 then
        cacheCheckLoop sha1Hex fs rest
          (dictSet downloads' file (some (Path.cacheFile file.filename)))
      else
        .error (.integrity file.filename)
    | none => cacheCheckLoop sha1Hex fs rest downloads'

/-- Phase 2a: the submission loop.  Returns the scheduled descriptors in
submission order, so the task of descriptor `tasks[i]` has task id `i`. -/
def scheduleTasks (downloads : Downloads) : List VersionFile → List VersionFile
  | [] => []
  | file :: rest =>
    match dictGet downloads file with
    | some (some _) => scheduleTasks downloads rest
    | _ => file :: scheduleTasks downloads rest

/-- Phase 2b: the workers run; each successful transfer streams its content
to `cache_dir / filename`, a failed transfer writes nothing. -/
def runDownloads (network : Network) (fs : FS) : List VersionFile → FS
  | [] => fs
  | t :: rest =>
    match network t.url with
    | some content => runDownloads network (fsWrite fs (Path.cacheFile t.filename) content) rest
    | none => runDownloads network fs rest

/-- Phase 2c: the join loop over `tasks.items()` in task-id order.
`future.result()` re-raises a failed transfer; a successful one records the
cache path against `files[task_id]` (the source's indexing, kept verbatim:
`downloads[files[task_id]] = self.cache_dir / files[task_id].filename`). -/
def joinLoop (network : Network) (files : List VersionFile) :
    List VersionFile → Nat → Downloads → Except DLError Downloads
  | [], _, downloads => .ok downloads
  | t :: rest, task_id, downloads =>
    match network t.url with
    | none => .error (.fetch t.filename)
    | some _ =>
      let f := files.getD task_id default
      joinLoop network files rest (task_id + 1)
        (dictSet downloads f (some (Path.cacheFile f.filename)))

/-- Phase 3: the verify-and-move loop over the `downloads` dict. -/
def verifyMoveLoop (sha1Hex : Content → String) (dest : String) :
    Downloads → FS → Locations → Except DLError Locations × FS
  | [], fs, locations => (.ok locations, fs)
  | (_file, none) :: rest, fs, locations =>
    -- `logging.warning("File %r was not downloaded", ...)`, then `continue`
    verifyMoveLoop sha1Hex dest rest fs locations
  | (file, some path) :: rest, fs, locations =>
    match fs path with
    | none => (.error (.fileNotFound file.filename), fs)
    | some content =>
      if verify_file sha1Hex content file.hashes.sha1 then
        verifyMoveLoop sha1Hex dest rest
          (fsWrite (fsErase fs path) (Path.destFile dest file.filename) content)
          (dictSet locations file (Path.destFile dest file.filename))
      else
        (.error (.integrity file.filename), fs)

/-- Method `download_files`.  Returns the result dict (or the raised
exception) together with the final filesystem state. -/
def download_files (sha1Hex : Content → String) (network : Network)
    (files : List VersionFile) (dest : String) (fs : FS) :
    Except DLError Locations × FS :=
  match cacheCheckLoop sha1Hex fs files [] with
  | .error e => (.error e, fs)
  | .ok downloads =>
    let tasks := scheduleTasks downloads files
    let fs1 := runDownloads network fs tasks
    match joinLoop network files tasks 0 downloads with
    | .error e => (.error e, fs1)
    | .ok downloads1 => verifyMoveLoop sha1Hex dest downloads1 fs1 []

/-- How many worker tasks (hence network transfers) a `download_files` call
submits: one per descriptor whose `downloads` entry is still falsy after the
cache-check phase. -/
def scheduledTransferCount (sha1Hex : Content → String) (fs : FS)
    (files : List VersionFile) : Nat :=
  match cacheCheckLoop sha1Hex fs files [] with
  | .error _ => 0
  | .ok downloads => (scheduleTasks downloads files).length

/-- Every recorded path in a `downloads` dict points at the cache entry of
its own descriptor.  Both phases that record a path store exactly
`self.cache_dir / file.filename`. -/
def PathsOk (dl : Downloads) : Prop :=
  ∀ f q, (f, some q) ∈ dl → q = Path.cacheFile f.filename

/-- What holds of a descriptor/path pair once the move loop has processed
it: the recorded path is `destination / filename`, the destination holds
content passing verification against the descriptor's sha1, and the cache
entry of that filename is gone (moved away). -/
def MovedOk (sha1Hex : Content → String) (dest : String) (f : VersionFile)
    (p : Path) (fs : FS) : Prop :=
  p = Path.destFile dest f.filename ∧
  (∃ c, fs p = some c ∧ verify_file sha1Hex c f.hashes.sha1 = true) ∧
  fs (Path.cacheFile f.filename) = none

end Modman

namespace ModrinthAPI

/-! ## CatalogFetcher: `ModrinthAPI.fetch_projects` / `fetch_versions`
(modrinth.py 104-179)

The registry's record types (`Project`, `Version`) and the raw JSON items
are opaque here; `decode` models the fallible pydantic constructor
(`Project(**item)` / `Version(**item)`): `none` means the constructor
raised.  `response` is the JSON list returned by `self._get` for the
batched request. -/

/-- The per-item parse loop: a parse failure is logged and the item skipped,
a success is appended. -/
def parseItems {Raw Rec : Type} (decode : Raw → Option Rec) : List Raw → List Rec
  | [] => []
  | item :: rest =>
    match decode item with
    | some parsed => parsed :: parseItems decode rest
    | none => parseItems decode rest

/-- Method `fetch_projects`: an empty id list short-circuits to `[]` without
a request; otherwise one batched request is made and each item parsed
independently. -/
def fetch_projects {Raw Rec : Type} (decode : Raw → Option Rec)
    (identifiers : List String) (response : List Raw) : List Rec :=
  if identifiers = [] then [] else parseItems decode response

/-- Method `fetch_versions`: same shape as `fetch_projects` with the other
record type. -/
def fetch_versions {Raw Rec : Type} (decode : Raw → Option Rec)
    (identifiers : List String) (response : List Raw) : List Rec :=
  if identifiers = [] then [] else parseItems decode response

/-- Python `list.pop()`: removes and returns the last element; on an empty
list it raises `IndexError`, which the callers turn into `None`. -/
def popLast {α : Type} : List α → Option α
  | [] => none
  | [x] => some x
  | _ :: x :: rest => popLast (x :: rest)

/-- Method `fetch_project`: `self.fetch_projects(identifier).pop()` with
`IndexError` mapped to `None`. -/
def fetch_project {Raw Rec : Type} (decode : Raw → Option Rec)
    (identifier : String) (response : List Raw) : Option Rec :=
  popLast (fetch_projects decode [identifier] response)

/-- Method `fetch_version`: `self.fetch_versions(identifier).pop()` with
`IndexError` mapped to `None`. -/
def fetch_version {Raw Rec : Type} (decode : Raw → Option Rec)
    (identifier : String) (response : List Raw) : Option Rec :=
  popLast (fetch_versions decode [identifier] response)

/-! ## RegistryClient: `ModrinthAPI._get`

Lines 67-76, the connection retry loop:

```python
for i in range(5):
    try:
        response = self.http.get(url, params=params)
    except httpx.ConnectError:
        self.log.warning("Connection error, retrying...")
        continue
    break
else:
    raise RuntimeError("Failed to connect to Modrinth API")
```

`attempt i` is the outcome of the `i`-th call to `self.http.get`: `none`
models `httpx.ConnectError`, `some r` a returned response. -/

/-- The `for ... else` loop body: try the listed attempt indices in order,
return the first response; `none` models falling through to the `else`
branch, `raise RuntimeError("Failed to connect to Modrinth API")`. -/
def connectRetryLoop {Resp : Type} (attempt : Nat → Option Resp) :
    List Nat → Option Resp
  | [] => none
  | i :: rest =>
    match attempt i with
    | some response => some response
    | none => connectRetryLoop attempt rest

/-- The whole retry construct: `for i in range(5)` with the `else` clause. -/
def getResponse {Resp : Type} (attempt : Nat → Option Resp) : Option Resp :=
  connectRetryLoop attempt (List.range 5)

/-! Lines 53-61, the rate-limit wait:

```python
if self.ratelimit_remaining == 0:
    now = time.time()
    wait_seconds = math.ceil(self.ratelimit_reset - now)
    task = progress.add_task("Waiting for rate-limit.", total=wait_seconds)
    for i in range(wait_seconds):
        time.sleep(1)
        progress.update(task, advance=1)
```

`time.time()` is modelled as a rational `now`; `range(wait_seconds)` of a
non-positive bound is empty. -/

/-- The computed `wait_seconds = math.ceil(self.ratelimit_reset - now)`. -/
def waitSeconds (ratelimit_reset : Int) (now : ℚ) : Int :=
  ⌈(ratelimit_reset : ℚ) - now⌉

/-- How many one-second sleeps the rate-limit guard performs before the
request is issued. -/
def rateLimitSleeps (ratelimit_remaining ratelimit_reset : Int) (now : ℚ) : Nat :=
  if ratelimit_remaining = 0 then (waitSeconds ratelimit_reset now).toNat else 0

end ModrinthAPI

namespace Modman

/-! ## Concrete inputs for counterexamples and witnesses -/

/-- A computable stand-in digest for concrete runs (the claims never depend
on the real SHA-1 values, only on digest comparison). -/
def demoHash (c : Content) : String := Nat.repr (c.headD 0)

/-- A descriptor whose file sits correctly in the cache. -/
def fileC : VersionFile :=
  { hashes := ⟨some (demoHash [1]), none⟩, url := "https://cdn.example/c.jar",
    filename := "c.jar", primary := true, size := 1 }

/-- A descriptor that is not cached and downloads successfully. -/
def fileN : VersionFile :=
  { hashes := ⟨some (demoHash [2]), none⟩, url := "https://cdn.example/n.jar",
    filename := "n.jar", primary := true, size := 1 }

/-- A descriptor with no sha1 digest, not cached, downloading successfully. -/
def fileX : VersionFile :=
  { hashes := ⟨none, none⟩, url := "https://cdn.example/x.jar",
    filename := "x.jar", primary := true, size := 1 }

/-- A filesystem holding only `fileC`'s correct content in the cache. -/
def demoFS : FS :=
  fun p => if p = Path.cacheFile "c.jar" then some [1] else none

/-- A filesystem holding a corrupted cache entry for `fileC`. -/
def demoBadFS : FS :=
  fun p => if p = Path.cacheFile "c.jar" then some [9] else none

/-- The empty filesystem. -/
def emptyFS : FS := fun _ => none

/-- A network serving `fileN`'s and `fileX`'s files. -/
def demoNet : Network :=
  fun u =>
    if u = "https://cdn.example/n.jar" then some [2]
    else if u = "https://cdn.example/x.jar" then some [7]
    else none

/-- A network on which every transfer fails. -/
def failNet : Network := fun _ => none

/-- A filesystem holding only `fileX`'s downloaded content in the cache. -/
def demoXFS : FS :=
  fun p => if p = Path.cacheFile "x.jar" then some [7] else none

end Modman

namespace ModrinthAPI

/-- An outcome sequence on which the first five connection attempts fail and
a sixth attempt would return a response. -/
def failingAttempts : Nat → Option Nat :=
  fun i => if i < 5 then none else some 200

/-- An outcome sequence failing twice and succeeding on the third attempt. -/
def retryDemoAttempts : Nat → Option Nat :=
  fun i => if i < 2 then none else some 200

end ModrinthAPI

/-! # Helper lemmas -/

namespace Modman

/-- Re-joining the 4096-byte chunks of a file gives back the file. -/
theorem chunksOf_foldl_append (l : Content) (acc : Content) :
    (chunksOf l).foldl (fun a c => a ++ c) acc = acc ++ l := by
  induction l using chunksOf.induct generalizing acc with
  | case1 => simp [chunksOf]
  | case2 b rest ih =>
    rw [chunksOf]
    simp only [List.foldl_cons]
    rw [ih]
    simp

/-- The chunked digest loop is the digest of the whole content. -/
theorem verify_file_eq (sha1Hex : Content → String) (content : Content)
    (expected : Option String) :
    verify_file sha1Hex content expected =
      match expected with
      | none => false
      | some e => sha1Hex content == e := by
  unfold verify_file
  rw [chunksOf_foldl_append]
  rfl

/-- Verification succeeds exactly when the expected digest is present and
equals the digest of the content. -/
theorem verify_file_true_iff (sha1Hex : Content → String) (content : Content)
    (expected : Option String) :
    verify_file sha1Hex content expected = true ↔
      expected = some (sha1Hex content) := by
  rw [verify_file_eq]
  cases expected with
  | none => simp
  | some e =>
    simp only [beq_iff_eq, Option.some.injEq]
    constructor
    · intro h; exact (by simpa using h.symm)
    · intro h; simpa using h.symm

/-- Verification against an absent digest always fails
(Python `str == None` is `False`). -/
theorem verify_file_none (sha1Hex : Content → String) (content : Content) :
    verify_file sha1Hex content none = false := by
  rw [verify_file_eq]

/-- Membership after a dict assignment: either an untouched entry, or the
assigned key/value. -/
theorem dictSet_mem {α β : Type} [DecidableEq α] :
    ∀ (d : List (α × β)) (k : α) (v : β) (x : α × β),
      x ∈ dictSet d k v → x ∈ d ∨ (x.1 = k ∧ x.2 = v)
  | [], k, v, x, hx => by
    simp [dictSet] at hx
    exact Or.inr (by simp [hx])
  | (k', v') :: rest, k, v, x, hx => by
    by_cases hk : k' = k
    · simp only [dictSet, if_pos hk, List.mem_cons] at hx
      rcases hx with h1 | h1
      · exact Or.inr ⟨by simp [h1, hk], by simp [h1]⟩
      · exact Or.inl (List.mem_cons_of_mem _ h1)
    · simp only [dictSet, if_neg hk, List.mem_cons] at hx
      rcases hx with h1 | h1
      · exact Or.inl (by simp [h1])
      · rcases dictSet_mem rest k v x h1 with h2 | h2
        · exact Or.inl (List.mem_cons_of_mem _ h2)
        · exact Or.inr h2

/-- The empty dict satisfies the recorded-path invariant. -/
theorem pathsOk_nil : PathsOk [] := by
  intro f q hq
  simp at hq

/-- Dict assignment preserves the recorded-path invariant when the assigned
value is the assigned descriptor's own cache path (or `none`). -/
theorem pathsOk_dictSet (d : Downloads) (k : VersionFile) (v : Option Path)
    (hd : PathsOk d) (hv : ∀ q, v = some q → q = Path.cacheFile k.filename) :
    PathsOk (dictSet d k v) := by
  intro f q hq
  rcases dictSet_mem d k v (f, some q) hq with h1 | ⟨h1, h2⟩
  · exact hd f q h1
  · simp only at h1 h2
    subst h1
    exact hv q h2.symm

/-- The cache-check loop only ever records cache paths. -/
theorem cacheCheckLoop_ok_pathsOk (sha1Hex : Content → String) (fs : FS) :
    ∀ (files : List VersionFile) (dl dl' : Downloads), PathsOk dl →
      cacheCheckLoop sha1Hex fs files dl = .ok dl' → PathsOk dl' := by
  intro files
  induction files with
  | nil =>
    intro dl dl' hp hc
    simp only [cacheCheckLoop, Except.ok.injEq] at hc
    exact hc ▸ hp
  | cons f rest ih =>
    intro dl dl' hp hc
    simp only [cacheCheckLoop] at hc
    have hp' : PathsOk (dictSet dl f none) :=
      pathsOk_dictSet dl f none hp (by intro q hq; cases hq)
    cases hfs : fs (Path.cacheFile f.filename) with
    | none =>
      rw [hfs] at hc
      exact ih _ _ hp' hc
    | some content =>
      rw [hfs] at hc
      simp only at hc
      by_cases hv : verify_file sha1Hex content f.hashes.sha1 = true
      · rw [if_pos hv] at hc
        exact ih _ _
          (pathsOk_dictSet _ f _ hp' (by intro q hq; injection hq with hq; exact hq.symm)) hc
      · rw [if_neg hv] at hc
        cases hc

/-- The join loop only ever records cache paths. -/
theorem joinLoop_ok_pathsOk (network : Network) (files : List VersionFile) :
    ∀ (ts : List VersionFile) (i : Nat) (dl dl' : Downloads), PathsOk dl →
      joinLoop network files ts i dl = .ok dl' → PathsOk dl' := by
  intro ts
  induction ts with
  | nil =>
    intro i dl dl' hp hj
    simp only [joinLoop, Except.ok.injEq] at hj
    exact hj ▸ hp
  | cons t rest ih =>
    intro i dl dl' hp hj
    simp only [joinLoop] at hj
    cases hn : network t.url with
    | none => rw [hn] at hj; cases hj
    | some c =>
      rw [hn] at hj
      simp only at hj
      exact ih (i + 1) _ dl'
        (pathsOk_dictSet _ _ _ hp (by intro q hq; injection hq with hq; exact hq.symm)) hj

/-- Any exception out of the cache-check loop is the integrity
`RuntimeError`. -/
theorem cacheCheckLoop_error_integrity (sha1Hex : Content → String) (fs : FS) :
    ∀ (files : List VersionFile) (dl : Downloads) (e : DLError),
      cacheCheckLoop sha1Hex fs files dl = .error e → ∃ n, e = .integrity n := by
  intro files
  induction files with
  | nil => intro dl e hc; simp [cacheCheckLoop] at hc
  | cons f rest ih =>
    intro dl e hc
    simp only [cacheCheckLoop] at hc
    cases hfs : fs (Path.cacheFile f.filename) with
    | none => rw [hfs] at hc; exact ih _ e hc
    | some content =>
      rw [hfs] at hc
      simp only at hc
      by_cases hv : verify_file sha1Hex content f.hashes.sha1 = true
      · rw [if_pos hv] at hc; exact ih _ e hc
      · rw [if_neg hv] at hc
        exact ⟨f.filename, by cases hc; rfl⟩

/-- A descriptor whose cached file fails verification makes the cache-check
loop raise the integrity error, whatever the bookkeeping dict holds. -/
theorem cacheCheckLoop_error_of_mismatch (sha1Hex : Content → String) (fs : FS)
    (file : VersionFile) (c : Content)
    (hcache : fs (Path.cacheFile file.filename) = some c)
    (hbad : verify_file sha1Hex c file.hashes.sha1 = false) :
    ∀ (files : List VersionFile), file ∈ files → ∀ dl,
      ∃ n, cacheCheckLoop sha1Hex fs files dl = .error (.integrity n) := by
  intro files
  induction files with
  | nil => intro hmem; exact absurd hmem (List.not_mem_nil _)
  | cons g rest ih =>
    intro hmem dl
    rw [List.mem_cons] at hmem
    cases hg : fs (Path.cacheFile g.filename) with
    | none =>
      have hfr : file ∈ rest := by
        rcases hmem with h1 | h1
        · subst h1; rw [hcache] at hg; cases hg
        · exact h1
      obtain ⟨n, hn⟩ := ih hfr (dictSet dl g none)
      refine ⟨n, ?_⟩
      simp only [cacheCheckLoop]
      rw [hg]
      exact hn
    | some cg =>
      by_cases hvg : verify_file sha1Hex cg g.hashes.sha1 = true
      · have hfr : file ∈ rest := by
          rcases hmem with h1 | h1
          · subst h1
            rw [hcache] at hg
            injection hg with hg
            subst hg
            rw [hbad] at hvg
            cases hvg
          · exact h1
        obtain ⟨n, hn⟩ := ih hfr _
        refine ⟨n, ?_⟩
        simp only [cacheCheckLoop]
        rw [hg]
        simp only
        rw [if_pos hvg]
        exact hn
      · refine ⟨g.filename, ?_⟩
        simp only [cacheCheckLoop]
        rw [hg]
        simp only
        rw [if_neg hvg]

/-- The verify-and-move loop invariant: if the recorded paths are cache
paths, every already-moved entry stays moved and verified; on a successful
pass, every entry of the final result dict is moved and verified in the
final filesystem. -/
theorem verifyMoveLoop_invariant (sha1Hex : Content → String) (dest : String) :
    ∀ (dl : Downloads) (fs : FS) (locs : Locations), PathsOk dl →
      (∀ f p, (f, p) ∈ locs → MovedOk sha1Hex dest f p fs) →
      ∀ locs', (verifyMoveLoop sha1Hex dest dl fs locs).1 = .ok locs' →
      ∀ f p, (f, p) ∈ locs' →
        MovedOk sha1Hex dest f p (verifyMoveLoop sha1Hex dest dl fs locs).2 := by
  intro dl
  induction dl with
  | nil =>
    intro fs locs _hp hm locs' hok f p hmem
    simp only [verifyMoveLoop, Except.ok.injEq] at hok
    simp only [verifyMoveLoop]
    exact hm f p (hok ▸ hmem)
  | cons entry rest ih =>
    obtain ⟨g, og⟩ := entry
    intro fs locs hp hm locs' hok f p hmem
    cases og with
    | none =>
      simp only [verifyMoveLoop] at hok ⊢
      exact ih fs locs (fun f' q hq => hp f' q (List.mem_cons_of_mem _ hq)) hm locs' hok f p hmem
    | some q =>
      have hq : q = Path.cacheFile g.filename := hp g q (List.mem_cons_self _ _)
      subst hq
      simp only [verifyMoveLoop] at hok ⊢
      cases hfs : fs (Path.cacheFile g.filename) with
      | none =>
        rw [hfs] at hok
        simp at hok
      | some c =>
        rw [hfs] at hok
        simp only at hok
        simp only
        by_cases hv : verify_file sha1Hex c g.hashes.sha1 = true
        · rw [if_pos hv] at hok ⊢
          refine ih _ _ (fun f' q' hq' => hp f' q' (List.mem_cons_of_mem _ hq'))
            ?_ locs' hok f p hmem
          intro f' p' hmem'
          rcases dictSet_mem locs g (Path.destFile dest g.filename) (f', p') hmem'
            with hold | ⟨h1, h2⟩
          · obtain ⟨hM1, ⟨c0, hc0, hv0⟩, hM3⟩ := hm f' p' hold
            have hneq : f'.filename ≠ g.filename := by
              intro he
              rw [← he] at hfs
              rw [hM3] at hfs
              cases hfs
            refine ⟨hM1, ⟨c0, ?_, hv0⟩, ?_⟩
            · rw [hM1] at hc0 ⊢
              simp only [fsWrite, fsErase]
              rw [if_neg (by simp [hneq]), if_neg (by simp)]
              exact hc0
            · simp only [fsWrite, fsErase]
              rw [if_neg (by simp), if_neg (by simp [hneq])]
              exact hM3
          · simp only at h1 h2
            subst h1
            subst h2
            refine ⟨rfl, ⟨c, ?_, hv⟩, ?_⟩
            · simp [fsWrite]
            · simp [fsWrite, fsErase]
        · rw [if_neg hv] at hok
          simp at hok

/-- On a successful `download_files` call, every entry of the result dict is
moved and verified in the final filesystem. -/
theorem download_files_ok_movedOk (sha1Hex : Content → String) (network : Network)
    (files : List VersionFile) (dest : String) (fs : FS) (locs : Locations)
    (h1 : (download_files sha1Hex network files dest fs).1 = .ok locs) :
    ∀ f p, (f, p) ∈ locs →
      MovedOk sha1Hex dest f p (download_files sha1Hex network files dest fs).2 := by
  intro f p hmem
  unfold download_files at h1 ⊢
  cases hc : cacheCheckLoop sha1Hex fs files [] with
  | error e =>
    rw [hc] at h1
    simp at h1
  | ok dl =>
    rw [hc] at h1
    simp only at h1 ⊢
    cases hj : joinLoop network files (scheduleTasks dl files) 0 dl with
    | error e =>
      rw [hj] at h1
      simp at h1
    | ok dl1 =>
      rw [hj] at h1
      simp only at h1 ⊢
      have hp1 : PathsOk dl1 :=
        joinLoop_ok_pathsOk network files _ 0 dl dl1
          (cacheCheckLoop_ok_pathsOk sha1Hex fs files [] dl pathsOk_nil hc) hj
      exact verifyMoveLoop_invariant sha1Hex dest dl1 _ [] hp1
        (by intro f' p' hp'; simp at hp') locs h1 f p hmem

/-- A cached file failing verification makes the whole call raise the
integrity error with the filesystem untouched. -/
theorem download_files_error_of_cached_mismatch (sha1Hex : Content → String)
    (network : Network) (files : List VersionFile) (dest : String) (fs : FS)
    (file : VersionFile) (c : Content)
    (hmem : file ∈ files)
    (hcache : fs (Path.cacheFile file.filename) = some c)
    (hbad : verify_file sha1Hex c file.hashes.sha1 = false) :
    ∃ n, download_files sha1Hex network files dest fs = (.error (.integrity n), fs) := by
  obtain ⟨n, hn⟩ := cacheCheckLoop_error_of_mismatch sha1Hex fs file c hcache hbad files hmem []
  refine ⟨n, ?_⟩
  unfold download_files
  rw [hn]

end Modman

namespace ModrinthAPI

/-- Python `list.pop()` returns the last element. -/
theorem popLast_eq_getLast? {α : Type} : ∀ (l : List α), popLast l = l.getLast?
  | [] => rfl
  | [_] => rfl
  | _ :: x :: rest => by
    rw [popLast, List.getLast?_cons_cons]
    exact popLast_eq_getLast? (x :: rest)

/-- Characterisation of `list.pop()`: it returns `r` exactly when the list
is some prefix followed by `[r]`. -/
theorem popLast_eq_some_iff {α : Type} (l : List α) (r : α) :
    popLast l = some r ↔ ∃ l', l = l' ++ [r] := by
  rw [popLast_eq_getLast?]
  constructor
  · intro h
    exact ⟨l.dropLast, (List.dropLast_append_getLast? r h).symm⟩
  · rintro ⟨l', rfl⟩
    exact List.getLast?_concat l'

/-- Characterisation of `list.pop()` raising `IndexError`. -/
theorem popLast_eq_none_iff {α : Type} (l : List α) :
    popLast l = none ↔ l = [] := by
  cases l with
  | nil => simp [popLast]
  | cons a t =>
    constructor
    · intro h
      rw [popLast_eq_getLast?] at h
      have := List.getLast?_isSome (l := a :: t)
      rw [h] at this
      simp at this
    · intro h
      cases h

/-- The per-item parse loop keeps exactly the items that decode. -/
theorem parseItems_eq_filterMap {Raw Rec : Type} (decode : Raw → Option Rec) :
    ∀ (l : List Raw), parseItems decode l = l.filterMap decode := by
  intro l
  induction l with
  | nil => simp [parseItems]
  | cons item rest ih =>
    rw [parseItems.eq_def]
    cases hd : decode item with
    | none => simp [List.filterMap_cons, hd, ih]
    | some parsed => simp [List.filterMap_cons, hd, ih]

/-- A run of all-failing attempts makes the retry loop fall through to the
`else` branch. -/
theorem connectRetryLoop_none_of_all {Resp : Type} (attempt : Nat → Option Resp) :
    ∀ (l : List Nat), (∀ i ∈ l, attempt i = none) →
      connectRetryLoop attempt l = none := by
  intro l
  induction l with
  | nil => intro _; rfl
  | cons i rest ih =>
    intro h
    rw [connectRetryLoop, h i (List.mem_cons_self i rest)]
    exact ih (fun j hj => h j (List.mem_cons_of_mem i hj))

/-- The retry loop over `range' s n` returns the first successful attempt. -/
theorem connectRetryLoop_range' {Resp : Type} (attempt : Nat → Option Resp)
    (k : Nat) (r : Resp) :
    ∀ (n s : Nat), s ≤ k → k < s + n →
      (∀ i, s ≤ i → i < k → attempt i = none) → attempt k = some r →
      connectRetryLoop attempt (List.range' s n) = some r := by
  intro n
  induction n with
  | zero => intro s h1 h2 _ _; omega
  | succ m ih =>
    intro s h1 h2 hb hk
    rw [List.range'_succ, connectRetryLoop]
    by_cases hs : s = k
    · subst hs
      rw [hk]
    · rw [hb s le_rfl (by omega)]
      exact ih (s + 1) (by omega) (by omega) (fun i hi1 hi2 => hb i (by omega) hi2) hk

end ModrinthAPI

/-! # Claim theorems -/

open Modman ModrinthAPI

/-- C1: the claim states that with two descriptors, one correctly cached and
one uncached, `download_files` performs exactly one network transfer and
returns BOTH descriptors in the result map with correct final paths.  The
code violates the second half: with the cached descriptor first, exactly one
transfer happens and succeeds (the downloaded bytes are in the cache
afterwards), but the join loop records the download against
`files[task_id] = files[0]` — the cached descriptor — so the downloaded
descriptor's entry stays `None` and it is dropped from the result map. -/
theorem c1_cached_first_drops_downloaded_descriptor :
    scheduledTransferCount demoHash demoFS [fileC, fileN] = 1 ∧
    (download_files demoHash demoNet [fileC, fileN] "dest" demoFS).1 =
      Except.ok [(fileC, Modman.Path.destFile "dest" "c.jar")] ∧
    (download_files demoHash demoNet [fileC, fileN] "dest" demoFS).2
        (Modman.Path.cacheFile "n.jar") = some [2] := by
  refine ⟨?_, ?_, ?_⟩ <;>
  simp +decide [scheduledTransferCount, download_files, cacheCheckLoop,
    scheduleTasks, runDownloads, joinLoop, verifyMoveLoop, dictSet, dictGet,
    fsWrite, fsErase, demoHash, fileC, fileN, demoFS, demoNet, verify_file,
    chunksOf]

/-- C2: the claim states a failed fetch is logged and omitted and never
fails the call.  The code violates this: `future.result()` re-raises the
worker's transfer exception, so a single failed fetch makes the whole
`download_files` call fail. -/
theorem c2_fetch_failure_fails_call :
    (download_files demoHash failNet [fileN] "dest" emptyFS).1 =
      Except.error (DLError.fetch "n.jar") := by
  simp +decide [download_files, cacheCheckLoop, scheduleTasks, runDownloads,
    joinLoop, verifyMoveLoop, dictSet, dictGet, demoHash, fileN, emptyFS,
    failNet, verify_file, chunksOf]

/-- C3: every descriptor present in the result map of `download_files` is
recorded at its final path `destination / filename`, and the file at that
path has digest equal to the descriptor's expected sha1 (so nothing is moved
without passing verification). -/
theorem c3_result_map_entries_verified (sha1Hex : Content → String)
    (network : Network) (files : List VersionFile) (dest : String) (fs : FS)
    (locs : Locations) (file : VersionFile) (p : Modman.Path)
    (h1 : (download_files sha1Hex network files dest fs).1 = Except.ok locs)
    (h2 : (file, p) ∈ locs) :
    p = Modman.Path.destFile dest file.filename ∧
    ∃ c, (download_files sha1Hex network files dest fs).2 p = some c ∧
      file.hashes.sha1 = some (sha1Hex c) := by
  obtain ⟨hm1, ⟨c, hc1, hc2⟩, _⟩ :=
    download_files_ok_movedOk sha1Hex network files dest fs locs h1 file p h2
  exact ⟨hm1, c, hc1, (verify_file_true_iff sha1Hex c file.hashes.sha1).mp hc2⟩

/-- Witness for C3: a concrete successful run. -/
theorem c3_witness :
    Modman.Path.destFile "dest" "n.jar" = Modman.Path.destFile "dest" fileN.filename ∧
    ∃ c, (download_files demoHash demoNet [fileN] "dest" emptyFS).2
        (Modman.Path.destFile "dest" "n.jar") = some c ∧
      fileN.hashes.sha1 = some (demoHash c) :=
  c3_result_map_entries_verified demoHash demoNet [fileN] "dest" emptyFS
    [(fileN, Modman.Path.destFile "dest" "n.jar")] fileN
    (Modman.Path.destFile "dest" "n.jar")
    (by simp +decide [download_files, cacheCheckLoop, scheduleTasks,
      runDownloads, joinLoop, verifyMoveLoop, dictSet, dictGet, fsWrite,
      fsErase, demoHash, fileN, emptyFS, demoNet, verify_file, chunksOf])
    (by simp)

/-- C4: a cached file whose content does not match the descriptor's declared
sha1 makes `download_files` raise the integrity `RuntimeError`, and the
filesystem — in particular the destination directory — is completely
untouched: no relocation happens for any descriptor of the call. -/
theorem c4_cached_mismatch_aborts_whole_call_without_moving
    (sha1Hex : Content → String) (network : Network) (files : List VersionFile)
    (dest : String) (fs : FS) (file : VersionFile) (c : Content) (e : String)
    (hmem : file ∈ files)
    (hcache : fs (Modman.Path.cacheFile file.filename) = some c)
    (hsha : file.hashes.sha1 = some e)
    (hne : sha1Hex c ≠ e) :
    ∃ n, download_files sha1Hex network files dest fs =
      (Except.error (DLError.integrity n), fs) := by
  have hbad : verify_file sha1Hex c file.hashes.sha1 = false := by
    rw [hsha, verify_file_eq]
    simp only
    exact beq_eq_false_iff_ne.mpr hne
  exact download_files_error_of_cached_mismatch sha1Hex network files dest fs
    file c hmem hcache hbad

/-- Witness for C4: a concrete corrupted-cache run. -/
theorem c4_witness :
    ∃ n, download_files demoHash demoNet [fileC, fileN] "dest" demoBadFS =
      (Except.error (DLError.integrity n), demoBadFS) :=
  c4_cached_mismatch_aborts_whole_call_without_moving demoHash demoNet
    [fileC, fileN] "dest" demoBadFS fileC [9] (demoHash [1])
    (by simp)
    (by simp +decide [demoBadFS, fileC])
    rfl
    (by decide)

/-- C5: `fetch_project` and `fetch_version` delegate to the batched fetch
with a single id and return exactly the last element of the batched result
when it is non-empty (`list.pop()`), and `None` when it is empty. -/
theorem c5_fetch_one_returns_last_of_batch {Raw RecP RecV : Type}
    (decodeP : Raw → Option RecP) (decodeV : Raw → Option RecV)
    (identifier : String) (response : List Raw) :
    (∀ r, fetch_project decodeP identifier response = some r ↔
      ∃ l, fetch_projects decodeP [identifier] response = l ++ [r]) ∧
    (fetch_project decodeP identifier response = none ↔
      fetch_projects decodeP [identifier] response = []) ∧
    (∀ r, fetch_version decodeV identifier response = some r ↔
      ∃ l, fetch_versions decodeV [identifier] response = l ++ [r]) ∧
    (fetch_version decodeV identifier response = none ↔
      fetch_versions decodeV [identifier] response = []) := by
  refine ⟨?_, ?_, ?_, ?_⟩
  · intro r
    exact popLast_eq_some_iff (fetch_projects decodeP [identifier] response) r
  · exact popLast_eq_none_iff (fetch_projects decodeP [identifier] response)
  · intro r
    exact popLast_eq_some_iff (fetch_versions decodeV [identifier] response) r
  · exact popLast_eq_none_iff (fetch_versions decodeV [identifier] response)

/-- C6: in a batched response each item is decoded independently; items
failing to decode are dropped (inserting a malformed item anywhere changes
nothing) and every well-formed item is kept, for both `fetch_projects` and
`fetch_versions`. -/
theorem c6_malformed_items_dropped_wellformed_kept {Raw Rec : Type}
    (decode : Raw → Option Rec) (ids : List String) (xs ys : List Raw)
    (bad : Raw) (hbad : decode bad = none) (hids : ids ≠ []) :
    fetch_projects decode ids (xs ++ bad :: ys) = fetch_projects decode ids (xs ++ ys) ∧
    fetch_versions decode ids (xs ++ bad :: ys) = fetch_versions decode ids (xs ++ ys) ∧
    fetch_projects decode ids (xs ++ ys) = (xs ++ ys).filterMap decode ∧
    fetch_versions decode ids (xs ++ ys) = (xs ++ ys).filterMap decode := by
  have h := parseItems_eq_filterMap decode
  refine ⟨?_, ?_, ?_, ?_⟩ <;>
    simp [fetch_projects, fetch_versions, hids, h, List.filterMap_append,
      List.filterMap_cons, hbad]

/-- Witness for C6: a concrete batch with one malformed item. -/
theorem c6_witness :
    fetch_projects (fun x : Option Nat => x) ["a"] ([some 1] ++ none :: [some 2]) =
      fetch_projects (fun x : Option Nat => x) ["a"] ([some 1] ++ [some 2]) ∧
    fetch_versions (fun x : Option Nat => x) ["a"] ([some 1] ++ none :: [some 2]) =
      fetch_versions (fun x : Option Nat => x) ["a"] ([some 1] ++ [some 2]) ∧
    fetch_projects (fun x : Option Nat => x) ["a"] ([some 1] ++ [some 2]) =
      ([some 1] ++ [some 2]).filterMap (fun x : Option Nat => x) ∧
    fetch_versions (fun x : Option Nat => x) ["a"] ([some 1] ++ [some 2]) =
      ([some 1] ++ [some 2]).filterMap (fun x : Option Nat => x) :=
  c6_malformed_items_dropped_wellformed_kept (fun x : Option Nat => x) ["a"]
    [some 1] [some 2] none rfl (by simp)

/-- C7 counterexample: the claim says a connection failure is retried up to
5 times before the fatal error, i.e. a request whose first five attempts
(the initial one and four retries) fail but whose sixth attempt (the fifth
retry) would succeed should return; the loop `for i in range(5)` stops after
five attempts in total, so the call fails instead. -/
theorem c7_counterexample_fifth_retry_never_attempted :
    getResponse failingAttempts = none ∧ failingAttempts 5 = some 200 := by
  exact ⟨rfl, rfl⟩

/-- C7 (amended): a connection-level failure is retried up to 4 more times —
five attempts in total; if all five attempts fail the call raises the fatal
connection error, and the first success among the five attempts is
returned. -/
theorem c7_connection_retry_five_attempts_total {Resp : Type}
    (attempt : Nat → Option Resp) :
    ((∀ i, i < 5 → attempt i = none) → getResponse attempt = none) ∧
    (∀ k r, k < 5 → (∀ i, i < k → attempt i = none) → attempt k = some r →
      getResponse attempt = some r) := by
  constructor
  · intro h
    exact connectRetryLoop_none_of_all attempt (List.range 5)
      (fun i hi => h i (List.mem_range.mp hi))
  · intro k r hk hb hs
    unfold getResponse
    rw [List.range_eq_range']
    exact connectRetryLoop_range' attempt k r 5 0 (by omega) (by omega)
      (fun i _ hi => hb i hi) hs

/-- Witness for C7: all five attempts fail on one sequence; on another the
third attempt succeeds and its response is returned. -/
theorem c7_witness :
    getResponse (fun _ => (none : Option Nat)) = none ∧
    getResponse retryDemoAttempts = some 200 :=
  ⟨(c7_connection_retry_five_attempts_total (fun _ => (none : Option Nat))).1
      (fun _ _ => rfl),
   (c7_connection_retry_five_attempts_total retryDemoAttempts).2 2 200
      (by omega)
      (by intro i hi; simp [retryDemoAttempts]; omega)
      (by simp [retryDemoAttempts])⟩

/-- C8 counterexample: with remaining = 0, resetEpoch = 0 (the initial
default; the header value is a seconds-until-reset count, not an epoch) and
now = 10, the claimed blocking time ceil(resetEpoch - now) is -10 seconds,
which is not a possible number of one-second sleeps: the code performs 0
sleeps, so the call does not block for "exactly ceil(resetEpoch - now)
seconds". -/
theorem c8_counterexample_elapsed_reset_means_no_wait :
    waitSeconds 0 10 = -10 ∧
    rateLimitSleeps 0 0 10 = 0 ∧
    (rateLimitSleeps 0 0 10 : Int) ≠ waitSeconds 0 10 := by
  have h : waitSeconds 0 10 = -10 := by
    unfold waitSeconds
    rw [show ((0:Int):ℚ) - 10 = ((-10 : ℤ) : ℚ) by norm_num, Int.ceil_intCast]
  refine ⟨h, ?_, ?_⟩
  · unfold rateLimitSleeps
    rw [if_pos rfl, h]
    rfl
  · unfold rateLimitSleeps
    rw [if_pos rfl, h]
    decide

/-- C8 (amended): when the tracked remaining count is 0 the call sleeps for
exactly max(ceil(resetEpoch - now), 0) one-second increments before issuing
its request (`range` of a non-positive bound is empty); when remaining is
nonzero it issues the request without any sleep. -/
theorem c8_sleep_count_is_clamped_ceil
    (ratelimit_remaining ratelimit_reset : Int) (now : ℚ) :
    (ratelimit_remaining = 0 →
      (rateLimitSleeps ratelimit_remaining ratelimit_reset now : Int) =
        max (waitSeconds ratelimit_reset now) 0) ∧
    (ratelimit_remaining ≠ 0 →
      rateLimitSleeps ratelimit_remaining ratelimit_reset now = 0) := by
  constructor
  · intro h
    simp only [rateLimitSleeps, if_pos h]
    exact Int.toNat_eq_max _
  · intro h
    simp only [rateLimitSleeps, if_neg h]

/-- Witness for C8: a pending reset (5 seconds from epoch 0, now 2) sleeps
for the clamped ceiling; a nonzero remaining count sleeps zero times. -/
theorem c8_witness :
    (rateLimitSleeps 0 5 2 : Int) = max (waitSeconds 5 2) 0 ∧
    rateLimitSleeps 7 5 2 = 0 :=
  ⟨(c8_sleep_count_is_clamped_ceil 0 5 2).1 rfl,
   (c8_sleep_count_is_clamped_ceil 7 5 2).2 (by decide)⟩

/-- C9: the verifier streams the file in 4096-byte chunks (re-joining the
chunk sequence yields exactly the file's content) and returns true iff the
digest of the full content equals the expected hex string. -/
theorem c9_verify_file_iff_digest_eq (sha1Hex : Content → String)
    (content : Content) (expected : Option String) :
    (chunksOf content).foldl (fun acc chunk => acc ++ chunk) [] = content ∧
    (verify_file sha1Hex content expected = true ↔
      expected = some (sha1Hex content)) :=
  ⟨by simpa using chunksOf_foldl_append content [],
   verify_file_true_iff sha1Hex content expected⟩

/-- C10 counterexample: the claim says a descriptor without a sha1 raises
the integrity error whenever its file is cached OR DOWNLOADED.  Here the
sha1-less `fileX` is not cached, its transfer succeeds (the bytes are in the
cache afterwards), yet the call returns successfully: because of the
`files[task_id]` indexing its entry stays `None` and it is skipped with a
warning instead of reaching the re-verification that would raise. -/
theorem c10_counterexample_downloaded_sha1less_no_error :
    fileX.hashes.sha1 = none ∧
    (download_files demoHash demoNet [fileC, fileX] "dest" demoFS).1 =
      Except.ok [(fileC, Modman.Path.destFile "dest" "c.jar")] ∧
    (download_files demoHash demoNet [fileC, fileX] "dest" demoFS).2
        (Modman.Path.cacheFile "x.jar") = some [7] := by
  refine ⟨rfl, ?_, ?_⟩ <;>
  simp +decide [download_files, cacheCheckLoop, scheduleTasks, runDownloads,
    joinLoop, verifyMoveLoop, dictSet, dictGet, fsWrite, fsErase, demoHash,
    fileC, fileX, demoFS, demoNet, verify_file, chunksOf]

/-- C10 (amended): verification with an absent sha1 can never succeed, so a
descriptor without a sha1 raises the integrity error whenever its file is
present in the cache at the initial check, and can never appear in the
result map; (a downloaded sha1-less descriptor whose bookkeeping entry is
lost to the task-id indexing is omitted without an error instead). -/
theorem c10_sha1less_descriptor_never_verifies_never_in_result
    (sha1Hex : Content → String) (network : Network)
    (files : List VersionFile) (dest : String) (fs : FS) (file : VersionFile) :
    (∀ c, verify_file sha1Hex c none = false) ∧
    (file ∈ files → file.hashes.sha1 = none →
      ∀ c, fs (Modman.Path.cacheFile file.filename) = some c →
      ∃ n, download_files sha1Hex network files dest fs =
        (Except.error (DLError.integrity n), fs)) ∧
    (∀ locs p, (download_files sha1Hex network files dest fs).1 = Except.ok locs →
      (file, p) ∈ locs → file.hashes.sha1 ≠ none) := by
  refine ⟨fun c => verify_file_none sha1Hex c, ?_, ?_⟩
  · intro hmem hsha c hcache
    have hbad : verify_file sha1Hex c file.hashes.sha1 = false := by
      rw [hsha]
      exact verify_file_none sha1Hex c
    exact download_files_error_of_cached_mismatch sha1Hex network files dest fs
      file c hmem hcache hbad
  · intro locs p h1 h2 hnone
    obtain ⟨_, ⟨c, _, hv⟩, _⟩ :=
      download_files_ok_movedOk sha1Hex network files dest fs locs h1 file p h2
    rw [hnone, verify_file_none] at hv
    exact Bool.noConfusion hv

/-- Witness for C10: a cached sha1-less descriptor aborts the call; a
descriptor appearing in a concrete successful result map has a sha1. -/
theorem c10_witness :
    (∃ n, download_files demoHash demoNet [fileX] "dest" demoXFS =
      (Except.error (DLError.integrity n), demoXFS)) ∧
    fileN.hashes.sha1 ≠ none :=
  ⟨(c10_sha1less_descriptor_never_verifies_never_in_result demoHash demoNet
      [fileX] "dest" demoXFS fileX).2.1 (by simp) rfl [7]
      (by simp +decide [demoXFS, fileX]),
   (c10_sha1less_descriptor_never_verifies_never_in_result demoHash demoNet
      [fileN] "dest" emptyFS fileN).2.2
      [(fileN, Modman.Path.destFile "dest" "n.jar")]
      (Modman.Path.destFile "dest" "n.jar")
      (by simp +decide [download_files, cacheCheckLoop, scheduleTasks,
        runDownloads, joinLoop, verifyMoveLoop, dictSet, dictGet, fsWrite,
        fsErase, demoHash, fileN, emptyFS, demoNet, verify_file, chunksOf])
      (by simp)⟩
